import Mathlib

/-!
# Leaderboard aggregation core of `lipia-ngoma-101`

Shallow embedding of the leaderboard aggregation and query logic of
`src/dfinity_js_backend/src/index.ts` (the complete canister variant, which
keys each `StableBTreeMap` by a string and stores
`LeaderboardEntry = {dj_name, total_tips, total_ratings, total_rating_points,
avg_rating}`), plus the `getLeaderboardForTopDJs` ranking query that appears
in the first canister variant of the same file.

Modelling decisions, each forced by the source:
* azle `StableBTreeMap`s are modelled as association lists whose pairs are
  kept strictly sorted by key; `values()` is the list of values in ascending
  key order, exactly the map's iteration order.
* `nat64` counters are modelled as `Nat`.
* The `float64` field `avg_rating` and the rating-floor threshold are
  modelled as exact rationals (`Rat`): the source computes
  `Number(total_rating_points) / Number(total_ratings)`, i.e. real division
  followed by one floating-point rounding, and the properties under
  verification tolerate that rounding, so the rational value is the faithful
  idealisation of the quotient.
* JavaScript template-literal error messages are rendered with string
  concatenation; the properties only depend on the `Error` variant arm.
* `Array.prototype.sort` (guaranteed stable by the ECMAScript spec) is
  modelled as a stable insertion sort with the relation
  "comparator result ≤ 0".
* JavaScript's `.toLowerCase()`, `.trim()` and the key order of the B-tree
  are modelled by structural recursion over the string's character list
  (`jsToLower`, `jsTrim`, `strLt`), so every operation evaluates inside the
  kernel; the quotient `Number(p) / Number(n)` is written `mkRat p n`, the
  same rational as `(p : Rat) / (n : Rat)`.
-/

namespace Lipia

/-- JavaScript `.toLowerCase()`: lower-case every character. -/
def jsToLower (t : String) : String := String.mk (t.data.map Char.toLower)

/-- JavaScript `.trim()`: strip leading and trailing whitespace. -/
def jsTrim (t : String) : String :=
  String.mk (((t.data.dropWhile Char.isWhitespace).reverse.dropWhile
    Char.isWhitespace).reverse)

/-- Lexicographic strict order on character lists (code-unit order), the
key order of the string-keyed B-tree. -/
def charListLtB : List Char → List Char → Bool
  | [], [] => false
  | [], _ :: _ => true
  | _ :: _, [] => false
  | c :: cs, d :: ds => if c < d then true else if d < c then false else charListLtB cs ds

/-- Strict lexicographic order on strings. -/
def strLt (a b : String) : Prop := charListLtB a.data b.data = true

instance : DecidableRel strLt := fun a b => by
  unfold strLt
  infer_instance

/-- `UserRole` variant from the source. -/
inductive UserRole
  | RegularUser
  | Admin
  | DJ
deriving DecidableEq

/-- `UserStatus` variant from the source. -/
inductive UserStatus
  | Active
  | Deactivated
deriving DecidableEq

/-- `TipStatus` variant from the source. -/
inductive TipStatus
  | Pending
  | Completed
deriving DecidableEq

/-- `User` record from the source. -/
structure User where
  id : String
  name : String
  contact : String
  created_at : Nat
  status : UserStatus
  role : UserRole
  points : Nat
deriving DecidableEq

/-- `Tip` record from the source. -/
structure Tip where
  id : String
  user_id : String
  dj_name : String
  amount : Nat
  tip_status : TipStatus
  created_at : Nat
deriving DecidableEq

/-- `Rating` record from the source. -/
structure Rating where
  id : String
  user_id : String
  dj_name : String
  rating : Nat
  review : String
  created_at : Nat
deriving DecidableEq

/-- `LeaderboardEntry` record from the source (complete variant):
`total_rating_points` accumulates raw rating values and `avg_rating` is the
`float64` running average, modelled as an exact rational. -/
structure LeaderboardEntry where
  dj_name : String
  total_tips : Nat
  total_ratings : Nat
  total_rating_points : Nat
  avg_rating : Rat
deriving DecidableEq

/-- `Error` variant from the source (complete variant, without `Success`). -/
inductive CanisterError
  | Error (msg : String)
  | NotFound (msg : String)
  | InvalidPayload (msg : String)
  | PaymentFailed (msg : String)
  | PaymentCompleted (msg : String)
deriving DecidableEq

/-! ## Association-list model of `StableBTreeMap` -/

/-- `map.get(key)`: first value stored under `key`. -/
def alGet {V : Type} : List (String × V) → String → Option V
  | [], _ => none
  | (k, v) :: rest, key => if key = k then some v else alGet rest key

/-- `map.insert(key, v)`: insert or replace, keeping keys in ascending
order (the B-tree keeps its keys sorted). -/
def alInsert {V : Type} : List (String × V) → String → V → List (String × V)
  | [], key, v => [(key, v)]
  | (k, w) :: rest, key, v =>
    if key = k then (key, v) :: rest
    else if strLt key k then (key, v) :: (k, w) :: rest
    else (k, w) :: alInsert rest key v

/-- `map.values()`: the stored values in ascending key order. -/
def alValues {V : Type} (l : List (String × V)) : List V := l.map Prod.snd

/-- The canister's stable storages touched by the leaderboard core:
`usersStorage`, `tipsStorage`, `ratingsStorage`, `leaderboardStorage`. -/
structure CanisterState where
  users : List (String × User)
  tips : List (String × Tip)
  ratings : List (String × Rating)
  leaderboard : List (String × LeaderboardEntry)
deriving DecidableEq

/-- DJ lookup used by `createTip`, `createRating` and `searchDJsByRating`:
`usersStorage.values().find(u => u.name.toLowerCase() ===
target.toLowerCase() && "DJ" in u.role)`. -/
def findDjByName (users : List (String × User)) (target : String) : Option User :=
  (alValues users).find?
    (fun u => decide (jsToLower u.name = jsToLower target ∧ u.role = UserRole.DJ))

/-- Leaderboard update block of `createTip`: add the amount to an existing
entry, or create a fresh entry with the rating family zeroed. -/
def applyTipToLeaderboard (lb : List (String × LeaderboardEntry)) (key : String)
    (amount : Nat) : List (String × LeaderboardEntry) :=
  match alGet lb key with
  | some e => alInsert lb key { e with total_tips := e.total_tips + amount }
  | none => alInsert lb key ⟨key, amount, 0, 0, 0⟩

/-- Leaderboard update block of `createRating`: bump the count, accumulate
the points and recompute the average by real division; on first use create
`{total_tips: 0, total_ratings: 1, total_rating_points: rating,
avg_rating: Number(rating)}`. -/
def applyRatingToLeaderboard (lb : List (String × LeaderboardEntry)) (key : String)
    (rating : Nat) : List (String × LeaderboardEntry) :=
  match alGet lb key with
  | some e =>
    alInsert lb key
      { e with
        total_ratings := e.total_ratings + 1,
        total_rating_points := e.total_rating_points + rating,
        avg_rating :=
          mkRat ((e.total_rating_points + rating : Nat) : Int)
            (e.total_ratings + 1) }
  | none => alInsert lb key ⟨key, 0, 1, rating, (rating : Rat)⟩

/-- `createTip` (complete variant): payload validation, user lookup, DJ-role
rejection, case-insensitive DJ resolution, tip insertion, leaderboard
update. `tipId` stands for the generated `uuidv4()` and `now` for
`ic.time()`. Returns the result together with the post-state. -/
def createTip (s : CanisterState) (user_id dj_name : String) (amount : Nat)
    (tipId : String) (now : Nat) : Except CanisterError Tip × CanisterState :=
  if dj_name = "" ∨ user_id = "" ∨ jsTrim dj_name = "" ∨ amount = 0 then
    (.error (.InvalidPayload "Missing or invalid input fields"), s)
  else
    match alGet s.users user_id with
    | none => (.error (.NotFound ("User with ID " ++ user_id ++ " not found")), s)
    | some user =>
      if user.role = UserRole.DJ then
        (.error (.InvalidPayload "DJ cannot make tips"), s)
      else
        match findDjByName s.users (jsTrim dj_name) with
        | none => (.error (.NotFound ("DJ with name " ++ dj_name ++ " not found")), s)
        | some _ =>
          let tip : Tip := ⟨tipId, user_id, jsTrim dj_name, amount, .Pending, now⟩
          (.ok tip,
            { s with
              tips := alInsert s.tips tipId tip,
              leaderboard := applyTipToLeaderboard s.leaderboard (jsTrim dj_name) amount })

/-- `createRating` (complete variant): payload validation (rating must lie
in `[1,5]`), user lookup, case-insensitive DJ resolution, rating insertion,
leaderboard update. `ratingId` stands for the generated `uuidv4()` and
`now` for `ic.time()`. -/
def createRating (s : CanisterState) (user_id dj_name : String) (rating : Nat)
    (review : String) (ratingId : String) (now : Nat) :
    Except CanisterError Rating × CanisterState :=
  if dj_name = "" ∨ user_id = "" ∨ jsTrim dj_name = "" ∨ rating < 1 ∨ 5 < rating then
    (.error (.InvalidPayload "Invalid input fields"), s)
  else
    match alGet s.users user_id with
    | none => (.error (.NotFound ("User with ID " ++ user_id ++ " not found")), s)
    | some _ =>
      match findDjByName s.users (jsTrim dj_name) with
      | none => (.error (.NotFound ("DJ with name " ++ dj_name ++ " not found")), s)
      | some _ =>
        let newRating : Rating := ⟨ratingId, user_id, jsTrim dj_name, rating, review, now⟩
        (.ok newRating,
          { s with
            ratings := alInsert s.ratings ratingId newRating,
            leaderboard := applyRatingToLeaderboard s.leaderboard (jsTrim dj_name) rating })

/-- `getLeaderboard`: all entries, or `NotFound` when there are none. -/
def getLeaderboard (s : CanisterState) : Except CanisterError (List LeaderboardEntry) :=
  let entries := alValues s.leaderboard
  if entries.length = 0 then .error (.NotFound "No leaderboard entries found")
  else .ok entries

/-- Loop body of the `for (const djName of djNames)` loop of
`searchDJsByRating`: push the resolved DJ profile, or skip the name. -/
def pushResolved (us : List (String × User)) (acc : List User) (n : String) :
    List User :=
  match findDjByName us n with
  | some u => acc ++ [u]
  | none => acc

/-- The DJ-profile list built by `searchDJsByRating`: filter the entries by
`avg_rating >= rating`, keep their names, and push each name's resolved DJ
profile, skipping names that do not resolve. -/
def searchDJsList (s : CanisterState) (rating : Rat) : List User :=
  ((((alValues s.leaderboard).filter (fun e => decide (rating ≤ e.avg_rating))).map
    (fun e => e.dj_name)).foldl (pushResolved s.users) [])

/-- `searchDJsByRating` (complete variant): resolved DJ profiles of all
entries at or above the threshold, or `NotFound` when that list is empty. -/
def searchDJsByRating (s : CanisterState) (rating : Rat) :
    Except CanisterError (List User) :=
  let djs := searchDJsList s rating
  if djs.length = 0 then
    .error (.NotFound ("No DJs found with rating >= " ++ toString rating))
  else .ok djs

/-- "comparator(a, b) ≤ 0" for the `getLeaderboardForTopDJs` comparator
`(a, b) => b.total_tips === a.total_tips ? Number(b.avg_rating -
a.avg_rating) : Number(b.total_tips - a.total_tips)`. -/
def tipCmpLe (a b : LeaderboardEntry) : Prop :=
  (a.total_tips = b.total_tips ∧ b.avg_rating ≤ a.avg_rating) ∨
    (¬a.total_tips = b.total_tips ∧ b.total_tips < a.total_tips)

instance : DecidableRel tipCmpLe := fun a b => by
  unfold tipCmpLe
  infer_instance

/-- `getLeaderboardForTopDJs`: stable-sort the entries by the comparator
(total tips descending, then average rating descending) and return the
first 5. -/
def getLeaderboardForTopDJs (entries : List LeaderboardEntry) :
    List LeaderboardEntry :=
  (List.insertionSort tipCmpLe entries).take 5

/-- One externally-invoked update call of the aggregation core. -/
inductive Op
  | tip (user_id dj_name : String) (amount : Nat) (tipId : String) (now : Nat)
  | rate (user_id dj_name : String) (rating : Nat) (review : String)
      (ratingId : String) (now : Nat)

/-- State transition of one call (the returned value is dropped). -/
def step (s : CanisterState) : Op → CanisterState
  | .tip uid dj amt tid now => (createTip s uid dj amt tid now).2
  | .rate uid dj rt rv rid now => (createRating s uid dj rt rv rid now).2

/-- Serialized execution of a sequence of calls. -/
def run (s : CanisterState) (ops : List Op) : CanisterState := ops.foldl step s

/-- Legacy `createRating` leaderboard formula from the first canister
variant of `index.ts` (also `src/unnamed/part_001`): `avg_rating` is a
`nat64` there and the update computes `(avg_rating * total_ratings) /
(total_ratings + 1)` with integer division, never adding the new rating. -/
def legacyRatingAvgUpdate (avg total_ratings : Nat) : Nat :=
  (avg * total_ratings) / (total_ratings + 1)



/-! ## Derived observations and orders (definitions used by the theorems) -/

/-- The DJ's running tip total in a leaderboard store (0 when absent). -/
def djTipsL (lb : List (String × LeaderboardEntry)) (key : String) : Nat :=
  match alGet lb key with
  | some e => e.total_tips
  | none => 0

/-- The leaderboard-entry consistency invariant: a rated entry's average is
the real quotient of its point sum by its rating count, and an unrated
entry has zero average and zero points. -/
def entryInv (e : LeaderboardEntry) : Prop :=
  (0 < e.total_ratings →
    e.avg_rating = (e.total_rating_points : Rat) / (e.total_ratings : Rat)) ∧
  (e.total_ratings = 0 → e.avg_rating = 0 ∧ e.total_rating_points = 0)

/-- Every entry of a leaderboard store satisfies `entryInv`. -/
def lbInv (lb : List (String × LeaderboardEntry)) : Prop :=
  ∀ p ∈ lb, entryInv p.2

/-- The full deterministic ranking order: `total_tips` descending, then
`avg_rating` descending, then DJ name ascending. -/
def topDJOrder (a b : LeaderboardEntry) : Prop :=
  b.total_tips < a.total_tips ∨
    (a.total_tips = b.total_tips ∧ b.avg_rating < a.avg_rating) ∨
    (a.total_tips = b.total_tips ∧ a.avg_rating = b.avg_rating ∧
      (strLt a.dj_name b.dj_name ∨ a.dj_name = b.dj_name))

instance : DecidableRel topDJOrder := fun a b => by
  unfold topDJOrder
  infer_instance

/-! ## Concrete stores used by the scenario theorem and the witnesses -/

/-- DJ "Nova": a stored user profile with the DJ role. -/
def novaUser : User := ⟨"id-nova", "Nova", "0711", 0, .Active, .DJ, 0⟩

/-- A regular user who tips and rates. -/
def fanUser : User := ⟨"id-fan", "Fan", "0722", 0, .Active, .RegularUser, 0⟩

/-- Users store holding the fan and DJ Nova. -/
def demoUsers : List (String × User) := [("id-fan", fanUser), ("id-nova", novaUser)]

/-- Initial state: two user profiles, everything else empty. -/
def demoState0 : CanisterState := ⟨demoUsers, [], [], []⟩

/-- Tips of 10, 5, 20 then ratings 5, 3, 4 for Nova, in order. -/
def demoOps : List Op :=
  [.tip "id-fan" "Nova" 10 "t1" 0, .tip "id-fan" "Nova" 5 "t2" 0,
    .tip "id-fan" "Nova" 20 "t3" 0,
    .rate "id-fan" "Nova" 5 "" "r1" 0, .rate "id-fan" "Nova" 3 "" "r2" 0,
    .rate "id-fan" "Nova" 4 "" "r3" 0]

/-- The state after Nova's six events. -/
def demoFinal : CanisterState := run demoState0 demoOps

/-- A state with no stored data at all. -/
def emptyDemoState : CanisterState := ⟨[], [], [], []⟩

/-- A leaderboard with an entry ("Ghost") whose name resolves to no stored
DJ profile, next to Nova's entry. -/
def ghostEntryState : CanisterState :=
  ⟨demoUsers, [], [],
    [("Ghost", ⟨"Ghost", 0, 1, 5, 5⟩), ("Nova", ⟨"Nova", 35, 3, 12, 4⟩)]⟩

/-- A state where Nova already has a leaderboard entry. -/
def novaEntryState : CanisterState :=
  ⟨demoUsers, [], [], [("Nova", ⟨"Nova", 35, 3, 12, 4⟩)]⟩

/-- Entries with a total-tips tie (broken by avg), used as a sort witness. -/
def wEntries : List LeaderboardEntry :=
  [⟨"a", 10, 1, 3, 3⟩, ⟨"b", 10, 2, 8, 4⟩, ⟨"c", 20, 0, 0, 0⟩]

/-! ## Theorems -/

/-- `get` after `insert` at the same key. -/
lemma alGet_alInsert_self {V : Type} (l : List (String × V)) (k : String) (v : V) :
    alGet (alInsert l k v) k = some v := by
  induction l with
  | nil => simp [alInsert, alGet]
  | cons p rest ih =>
    obtain ⟨k', w⟩ := p
    by_cases h : k = k'
    · simp [alInsert, h, alGet]
    · by_cases h2 : strLt k k'
      · simp [alInsert, h, h2, alGet]
      · simp [alInsert, h, h2, alGet, ih]

/-- `get` after `insert` at a different key. -/
lemma alGet_alInsert_ne {V : Type} (l : List (String × V)) (k k' : String) (v : V)
    (h : k' ≠ k) : alGet (alInsert l k v) k' = alGet l k' := by
  induction l with
  | nil => simp [alInsert, alGet, h]
  | cons p rest ih =>
    obtain ⟨k'', w⟩ := p
    by_cases h1 : k = k''
    · subst h1
      simp [alInsert, alGet, h]
    · by_cases h2 : strLt k k''
      · simp [alInsert, h1, h2, alGet, h]
      · simp [alInsert, h1, h2, alGet, ih]

/-- Inserting a key that is absent grows the list by exactly one pair. -/
lemma length_alInsert_of_get_none {V : Type} (l : List (String × V)) (k : String)
    (v : V) (h : alGet l k = none) : (alInsert l k v).length = l.length + 1 := by
  induction l with
  | nil => simp [alInsert]
  | cons p rest ih =>
    obtain ⟨k', w⟩ := p
    by_cases h1 : k = k'
    · simp [alGet, h1] at h
    · by_cases h2 : strLt k k'
      · simp [alInsert, h1, h2]
      · simp [alGet, h1] at h
        simp [alInsert, h1, h2, ih h]

/-- Every pair of the updated list is the new pair or an old pair. -/
lemma mem_alInsert {V : Type} (l : List (String × V)) (k : String) (v : V) :
    ∀ p ∈ alInsert l k v, p = (k, v) ∨ p ∈ l := by
  induction l with
  | nil => simp [alInsert]
  | cons q rest ih =>
    obtain ⟨k', w⟩ := q
    intro p hp
    by_cases h1 : k = k'
    · simp [alInsert, h1] at hp
      rcases hp with hp | hp
      · exact Or.inl (by simp [hp, h1])
      · exact Or.inr (by simp [hp])
    · by_cases h2 : strLt k k'
      · simp [alInsert, h1, h2] at hp
        rcases hp with hp | hp | hp
        · exact Or.inl (by simp [hp])
        · exact Or.inr (by simp [hp])
        · exact Or.inr (by simp [hp])
      · simp [alInsert, h1, h2] at hp
        rcases hp with hp | hp
        · exact Or.inr (by simp [hp])
        · rcases ih p hp with h | h
          · exact Or.inl h
          · exact Or.inr (by simp [h])



/-- Successful run of `createTip`: the exact result and post-state. -/
lemma createTip_ok (s : CanisterState) (user_id dj_name : String) (amount : Nat)
    (tipId : String) (now : Nat) (u : User)
    (hdj : dj_name ≠ "") (huid : user_id ≠ "") (hdjt : jsTrim dj_name ≠ "")
    (hamt : amount ≠ 0)
    (hu : alGet s.users user_id = some u) (hrole : u.role ≠ UserRole.DJ)
    (hdjfound : (findDjByName s.users (jsTrim dj_name)).isSome) :
    createTip s user_id dj_name amount tipId now =
      (.ok ⟨tipId, user_id, jsTrim dj_name, amount, .Pending, now⟩,
        { s with
          tips := alInsert s.tips tipId
            ⟨tipId, user_id, jsTrim dj_name, amount, .Pending, now⟩,
          leaderboard :=
            applyTipToLeaderboard s.leaderboard (jsTrim dj_name) amount }) := by
  obtain ⟨d, hd⟩ := Option.isSome_iff_exists.mp hdjfound
  simp [createTip, hdj, huid, hdjt, hamt, hu, hrole, hd]

/-- Any run of `createTip` either leaves the state unchanged and reports an
error, or succeeds with the canonical post-state. -/
lemma createTip_cases (s : CanisterState) (user_id dj_name : String) (amount : Nat)
    (tipId : String) (now : Nat) :
    (∃ e, createTip s user_id dj_name amount tipId now = (.error e, s)) ∨
      createTip s user_id dj_name amount tipId now =
        (.ok ⟨tipId, user_id, jsTrim dj_name, amount, .Pending, now⟩,
          { s with
            tips := alInsert s.tips tipId
              ⟨tipId, user_id, jsTrim dj_name, amount, .Pending, now⟩,
            leaderboard :=
              applyTipToLeaderboard s.leaderboard (jsTrim dj_name) amount }) := by
  by_cases hval : dj_name = "" ∨ user_id = "" ∨ jsTrim dj_name = "" ∨ amount = 0
  · exact Or.inl ⟨CanisterError.InvalidPayload "Missing or invalid input fields",
      by unfold createTip; rw [if_pos hval]⟩
  · cases hu : alGet s.users user_id with
    | none =>
      exact Or.inl ⟨CanisterError.NotFound ("User with ID " ++ user_id ++ " not found"),
        by simp [createTip, hval, hu]⟩
    | some u =>
      by_cases hrole : u.role = UserRole.DJ
      · exact Or.inl ⟨CanisterError.InvalidPayload "DJ cannot make tips",
          by simp [createTip, hval, hu, hrole]⟩
      · cases hd : findDjByName s.users (jsTrim dj_name) with
        | none =>
          exact Or.inl ⟨CanisterError.NotFound ("DJ with name " ++ dj_name ++ " not found"),
            by simp [createTip, hval, hu, hrole, hd]⟩
        | some d => exact Or.inr (by simp [createTip, hval, hu, hrole, hd])

/-- Successful run of `createRating`: the exact result and post-state. -/
lemma createRating_ok (s : CanisterState) (user_id dj_name : String) (rating : Nat)
    (review ratingId : String) (now : Nat) (u : User)
    (hdj : dj_name ≠ "") (huid : user_id ≠ "") (hdjt : jsTrim dj_name ≠ "")
    (hlo : 1 ≤ rating) (hhi : rating ≤ 5)
    (hu : alGet s.users user_id = some u)
    (hdjfound : (findDjByName s.users (jsTrim dj_name)).isSome) :
    createRating s user_id dj_name rating review ratingId now =
      (.ok ⟨ratingId, user_id, jsTrim dj_name, rating, review, now⟩,
        { s with
          ratings := alInsert s.ratings ratingId
            ⟨ratingId, user_id, jsTrim dj_name, rating, review, now⟩,
          leaderboard :=
            applyRatingToLeaderboard s.leaderboard (jsTrim dj_name) rating }) := by
  obtain ⟨d, hd⟩ := Option.isSome_iff_exists.mp hdjfound
  have h0 : rating ≠ 0 := by omega
  have h5 : ¬5 < rating := by omega
  simp [createRating, hdj, huid, hdjt, h0, h5, hu, hd]

/-- Any run of `createRating` either leaves the state unchanged and reports
an error, or succeeds with the canonical post-state. -/
lemma createRating_cases (s : CanisterState) (user_id dj_name : String)
    (rating : Nat) (review ratingId : String) (now : Nat) :
    (∃ e, createRating s user_id dj_name rating review ratingId now = (.error e, s)) ∨
      createRating s user_id dj_name rating review ratingId now =
        (.ok ⟨ratingId, user_id, jsTrim dj_name, rating, review, now⟩,
          { s with
            ratings := alInsert s.ratings ratingId
              ⟨ratingId, user_id, jsTrim dj_name, rating, review, now⟩,
            leaderboard :=
              applyRatingToLeaderboard s.leaderboard (jsTrim dj_name) rating }) := by
  by_cases hval : dj_name = "" ∨ user_id = "" ∨ jsTrim dj_name = "" ∨ rating < 1 ∨ 5 < rating
  · exact Or.inl ⟨CanisterError.InvalidPayload "Invalid input fields",
      by unfold createRating; rw [if_pos hval]⟩
  · have h1 : dj_name ≠ "" := fun h => hval (Or.inl h)
    have h2 : user_id ≠ "" := fun h => hval (Or.inr (Or.inl h))
    have h3 : jsTrim dj_name ≠ "" := fun h => hval (Or.inr (Or.inr (Or.inl h)))
    have h4 : rating ≠ 0 := fun h => hval (Or.inr (Or.inr (Or.inr (Or.inl (by omega)))))
    have h5 : ¬5 < rating := fun h => hval (Or.inr (Or.inr (Or.inr (Or.inr h))))
    cases hu : alGet s.users user_id with
    | none =>
      exact Or.inl ⟨CanisterError.NotFound ("User with ID " ++ user_id ++ " not found"),
        by simp [createRating, h1, h2, h3, h4, h5, hu]⟩
    | some u =>
      cases hd : findDjByName s.users (jsTrim dj_name) with
      | none =>
        exact Or.inl ⟨CanisterError.NotFound ("DJ with name " ++ dj_name ++ " not found"),
          by simp [createRating, h1, h2, h3, h4, h5, hu, hd]⟩
      | some d => exact Or.inr (by simp [createRating, h1, h2, h3, h4, h5, hu, hd])

/-- C5: a tip for a DJ with no leaderboard entry creates exactly one new
entry `{total_tips: amount, total_ratings: 0, total_rating_points: 0,
avg_rating: 0}`, and a rating for a DJ with no entry creates exactly one
new entry `{total_tips: 0, total_ratings: 1, total_rating_points: rating,
avg_rating: rating}`; in both cases every other key is untouched. -/
theorem creation_on_first_use :
    (∀ (s : CanisterState) (user_id dj_name : String) (amount : Nat)
        (tipId : String) (now : Nat) (t : Tip),
      (createTip s user_id dj_name amount tipId now).1 = .ok t →
      alGet s.leaderboard (jsTrim dj_name) = none →
      alGet (createTip s user_id dj_name amount tipId now).2.leaderboard
          (jsTrim dj_name) = some ⟨jsTrim dj_name, amount, 0, 0, 0⟩ ∧
        ((createTip s user_id dj_name amount tipId now).2.leaderboard).length =
          s.leaderboard.length + 1 ∧
        ∀ k, k ≠ jsTrim dj_name →
          alGet (createTip s user_id dj_name amount tipId now).2.leaderboard k =
            alGet s.leaderboard k) ∧
    (∀ (s : CanisterState) (user_id dj_name : String) (rating : Nat)
        (review ratingId : String) (now : Nat) (r : Rating),
      (createRating s user_id dj_name rating review ratingId now).1 = .ok r →
      alGet s.leaderboard (jsTrim dj_name) = none →
      alGet (createRating s user_id dj_name rating review ratingId now).2.leaderboard
          (jsTrim dj_name) = some ⟨jsTrim dj_name, 0, 1, rating, (rating : Rat)⟩ ∧
        ((createRating s user_id dj_name rating review ratingId now).2.leaderboard).length =
          s.leaderboard.length + 1 ∧
        ∀ k, k ≠ jsTrim dj_name →
          alGet (createRating s user_id dj_name rating review ratingId now).2.leaderboard k =
            alGet s.leaderboard k) := by
  constructor
  · intro s user_id dj_name amount tipId now t hok hnone
    rcases createTip_cases s user_id dj_name amount tipId now with ⟨e, he⟩ | hs
    · rw [he] at hok
      simp at hok
    · rw [hs]
      simp only [applyTipToLeaderboard, hnone]
      exact ⟨alGet_alInsert_self _ _ _, length_alInsert_of_get_none _ _ _ hnone,
        fun k hk => alGet_alInsert_ne _ _ _ _ hk⟩
  · intro s user_id dj_name rating review ratingId now r hok hnone
    rcases createRating_cases s user_id dj_name rating review ratingId now with ⟨e, he⟩ | hs
    · rw [he] at hok
      simp at hok
    · rw [hs]
      simp only [applyRatingToLeaderboard, hnone]
      exact ⟨alGet_alInsert_self _ _ _, length_alInsert_of_get_none _ _ _ hnone,
        fun k hk => alGet_alInsert_ne _ _ _ _ hk⟩

/-- C9: when the tipping user's profile resolves and carries the DJ role,
`createTip` reports `InvalidPayload` and leaves both the tips store and the
leaderboard store unchanged. -/
theorem tip_by_dj_rejected (s : CanisterState) (user_id dj_name : String)
    (amount : Nat) (tipId : String) (now : Nat) (u : User)
    (hu : alGet s.users user_id = some u) (hrole : u.role = UserRole.DJ) :
    (∃ m, (createTip s user_id dj_name amount tipId now).1 =
        .error (.InvalidPayload m)) ∧
      (createTip s user_id dj_name amount tipId now).2.tips = s.tips ∧
      (createTip s user_id dj_name amount tipId now).2.leaderboard = s.leaderboard := by
  by_cases hval : dj_name = "" ∨ user_id = "" ∨ jsTrim dj_name = "" ∨ amount = 0
  · have h : createTip s user_id dj_name amount tipId now =
        (.error (.InvalidPayload "Missing or invalid input fields"), s) := by
      unfold createTip
      rw [if_pos hval]
    rw [h]
    exact ⟨⟨_, rfl⟩, rfl, rfl⟩
  · have h : createTip s user_id dj_name amount tipId now =
        (.error (.InvalidPayload "DJ cannot make tips"), s) := by
      simp [createTip, hval, hu, hrole]
    rw [h]
    exact ⟨⟨_, rfl⟩, rfl, rfl⟩

/-- C10: a successful `createRating` on a DJ that already has a leaderboard
entry never changes that entry's `total_tips` or `dj_name`. -/
theorem rating_frame_on_tips (s : CanisterState) (user_id dj_name : String)
    (rating : Nat) (review ratingId : String) (now : Nat) (e : LeaderboardEntry)
    (r : Rating)
    (he : alGet s.leaderboard (jsTrim dj_name) = some e)
    (hok : (createRating s user_id dj_name rating review ratingId now).1 = .ok r) :
    ∃ e', alGet (createRating s user_id dj_name rating review ratingId now).2.leaderboard
        (jsTrim dj_name) = some e' ∧
      e'.total_tips = e.total_tips ∧ e'.dj_name = e.dj_name ∧
      e'.total_ratings = e.total_ratings + 1 ∧
      e'.total_rating_points = e.total_rating_points + rating := by
  rcases createRating_cases s user_id dj_name rating review ratingId now with ⟨er, her⟩ | hs
  · rw [her] at hok
    simp at hok
  · rw [hs]
    simp only [applyRatingToLeaderboard, he]
    exact ⟨_, alGet_alInsert_self _ _ _, rfl, rfl, rfl, rfl⟩

/-- The push-loop of `searchDJsByRating` collects exactly the resolvable
names, in order. -/
lemma searchFold_eq (us : List (String × User)) :
    ∀ (names : List String) (acc : List User),
      names.foldl (pushResolved us) acc =
        acc ++ names.filterMap (fun n => findDjByName us n) := by
  intro names
  induction names with
  | nil => intro acc; simp
  | cons n ns ih =>
    intro acc
    cases h : findDjByName us n with
    | none => simp [List.foldl_cons, pushResolved, h, ih, List.filterMap_cons]
    | some u => simp [List.foldl_cons, pushResolved, h, ih, List.filterMap_cons]

/-- Declarative form of the DJ-profile list of `searchDJsByRating`. -/
lemma searchDJsList_eq (s : CanisterState) (q : Rat) :
    searchDJsList s q =
      ((alValues s.leaderboard).filter (fun e => decide (q ≤ e.avg_rating))).filterMap
        (fun e => findDjByName s.users e.dj_name) := by
  unfold searchDJsList
  rw [searchFold_eq]
  simp [List.filterMap_map, Function.comp_def]

/-- C7: `getLeaderboard` on an empty store answers `NotFound` and never an
empty success list, and `searchDJsByRating` answers `NotFound` whenever its
resolved DJ list is empty, never an empty success list. -/
theorem empty_result_signaling (s : CanisterState) (q : Rat) :
    ((alValues s.leaderboard).length = 0 →
      getLeaderboard s = .error (.NotFound "No leaderboard entries found")) ∧
    (∀ l, getLeaderboard s = .ok l → l ≠ []) ∧
    ((searchDJsList s q).length = 0 →
      searchDJsByRating s q =
        .error (.NotFound ("No DJs found with rating >= " ++ toString q))) ∧
    (∀ l, searchDJsByRating s q = .ok l → l ≠ []) := by
  refine ⟨?_, ?_, ?_, ?_⟩
  · intro h
    simp [getLeaderboard, h]
  · intro l hl h0
    by_cases h : (alValues s.leaderboard).length = 0
    · simp [getLeaderboard, h] at hl
    · simp [getLeaderboard, h] at hl
      rw [hl, h0] at h
      simp at h
  · intro h
    simp [searchDJsByRating, h]
  · intro l hl h0
    by_cases h : (searchDJsList s q).length = 0
    · simp [searchDJsByRating, h] at hl
    · simp [searchDJsByRating, h] at hl
      rw [hl, h0] at h
      simp at h

/-- C8: whenever `searchDJsByRating` succeeds, the returned list is exactly
the leaderboard entries at or above the threshold, each resolved to its DJ
profile, with unresolvable names silently dropped. -/
theorem search_by_rating_exact (s : CanisterState) (q : Rat) (djs : List User)
    (h : searchDJsByRating s q = .ok djs) :
    djs = ((alValues s.leaderboard).filter (fun e => decide (q ≤ e.avg_rating))).filterMap
      (fun e => findDjByName s.users e.dj_name) := by
  by_cases h0 : (searchDJsList s q).length = 0
  · simp [searchDJsByRating, h0] at h
  · simp [searchDJsByRating, h0] at h
    rw [← h, searchDJsList_eq]

/-- A successful `get` returns a pair stored in the list. -/
lemma alGet_mem {V : Type} (l : List (String × V)) (k : String) (v : V)
    (h : alGet l k = some v) : (k, v) ∈ l := by
  induction l with
  | nil => simp [alGet] at h
  | cons p rest ih =>
    obtain ⟨k', w⟩ := p
    by_cases hk : k = k'
    · simp [alGet, hk] at h
      simp [hk, h]
    · simp [alGet, hk] at h
      simp [ih h]

/-- The tip update preserves the consistency invariant. -/
lemma lbInv_applyTip (lb : List (String × LeaderboardEntry)) (key : String)
    (amount : Nat) (h : lbInv lb) : lbInv (applyTipToLeaderboard lb key amount) := by
  intro p hp
  unfold applyTipToLeaderboard at hp
  cases hget : alGet lb key with
  | some e =>
    rw [hget] at hp
    rcases mem_alInsert _ _ _ p hp with hc | hc
    · have he : entryInv e := h _ (alGet_mem _ _ _ hget)
      rw [hc]
      exact he
    · exact h _ hc
  | none =>
    rw [hget] at hp
    rcases mem_alInsert _ _ _ p hp with hc | hc
    · rw [hc]
      exact ⟨fun h0 => absurd h0 (by simp), fun _ => ⟨rfl, rfl⟩⟩
    · exact h _ hc

/-- The rating update preserves the consistency invariant. -/
lemma lbInv_applyRating (lb : List (String × LeaderboardEntry)) (key : String)
    (rating : Nat) (h : lbInv lb) :
    lbInv (applyRatingToLeaderboard lb key rating) := by
  intro p hp
  unfold applyRatingToLeaderboard at hp
  cases hget : alGet lb key with
  | some e =>
    rw [hget] at hp
    rcases mem_alInsert _ _ _ p hp with hc | hc
    · rw [hc]
      refine ⟨fun _ => ?_, fun h0 => by simp at h0⟩
      simp only [Rat.mkRat_eq_div]
      push_cast
      ring
    · exact h _ hc
  | none =>
    rw [hget] at hp
    rcases mem_alInsert _ _ _ p hp with hc | hc
    · rw [hc]
      refine ⟨fun _ => ?_, fun h0 => by simp at h0⟩
      simp
    · exact h _ hc

/-- Every single call preserves the consistency invariant. -/
lemma lbInv_step (s : CanisterState) (op : Op) (h : lbInv s.leaderboard) :
    lbInv (step s op).leaderboard := by
  cases op with
  | tip uid dj amt tid now =>
    rcases createTip_cases s uid dj amt tid now with ⟨e, he⟩ | hs
    · simp [step, he, h]
    · simp [step, hs]
      exact lbInv_applyTip _ _ _ h
  | rate uid dj rt rv rid now =>
    rcases createRating_cases s uid dj rt rv rid now with ⟨e, he⟩ | hs
    · simp [step, he, h]
    · simp [step, hs]
      exact lbInv_applyRating _ _ _ h

/-- The invariant is preserved by any serialized sequence of calls. -/
lemma lbInv_run (ops : List Op) : ∀ (s : CanisterState), lbInv s.leaderboard →
    lbInv (run s ops).leaderboard := by
  induction ops with
  | nil => intro s h; exact h
  | cons op rest ih =>
    intro s h
    exact ih (step s op) (lbInv_step s op h)

/-- C2: starting from an empty leaderboard store, after any sequence of
`createTip` and `createRating` calls every entry with `total_ratings > 0`
has `avg_rating = total_rating_points / total_ratings` (real division) and
every entry with `total_ratings = 0` has `avg_rating = 0` and
`total_rating_points = 0`. -/
theorem leaderboard_consistency (s0 : CanisterState) (h : s0.leaderboard = [])
    (ops : List Op) : lbInv (run s0 ops).leaderboard := by
  refine lbInv_run ops s0 ?_
  rw [h]
  intro p hp
  simp at hp

/-- The tip update adds exactly the amount to the named DJ's total. -/
lemma djTipsL_applyTip_self (lb : List (String × LeaderboardEntry)) (key : String)
    (amt : Nat) : djTipsL (applyTipToLeaderboard lb key amt) key = djTipsL lb key + amt := by
  unfold djTipsL applyTipToLeaderboard
  cases hget : alGet lb key with
  | some e => simp [hget, alGet_alInsert_self]
  | none => simp [hget, alGet_alInsert_self]

/-- The tip update never decreases any DJ's total. -/
lemma djTipsL_applyTip_mono (lb : List (String × LeaderboardEntry)) (key : String)
    (amt : Nat) (k : String) :
    djTipsL lb k ≤ djTipsL (applyTipToLeaderboard lb key amt) k := by
  by_cases hk : k = key
  · subst hk
    rw [djTipsL_applyTip_self]
    omega
  · unfold djTipsL applyTipToLeaderboard
    cases hget : alGet lb key with
    | some e => rw [alGet_alInsert_ne _ _ _ _ hk]
    | none => rw [alGet_alInsert_ne _ _ _ _ hk]

/-- No `createTip` call, successful or not, decreases any DJ's total. -/
lemma djTips_step_mono (s : CanisterState) (user_id dj_name : String) (amt : Nat)
    (tipId : String) (now : Nat) (k : String) :
    djTipsL s.leaderboard k ≤
      djTipsL ((createTip s user_id dj_name amt tipId now).2).leaderboard k := by
  rcases createTip_cases s user_id dj_name amt tipId now with ⟨e, he⟩ | hs
  · rw [he]
  · rw [hs]
    exact djTipsL_applyTip_mono _ _ _ _

/-- Accumulation of a sequence of successful tips for one DJ. -/
lemma tip_seq_aux (user_id dj_name tipId : String) (now : Nat) (u : User)
    (hdj : dj_name ≠ "") (huid : user_id ≠ "") (hdjt : jsTrim dj_name ≠ "")
    (hrole : u.role ≠ UserRole.DJ) :
    ∀ (amts : List Nat) (s : CanisterState),
      alGet s.users user_id = some u →
      (findDjByName s.users (jsTrim dj_name)).isSome →
      (∀ a ∈ amts, 0 < a) →
      djTipsL ((run s (amts.map (fun a => Op.tip user_id dj_name a tipId now))).leaderboard)
          (jsTrim dj_name) =
        djTipsL s.leaderboard (jsTrim dj_name) + amts.sum := by
  intro amts
  induction amts with
  | nil => intro s _ _ _; simp [run]
  | cons a rest ih =>
    intro s hu hfound hpos
    have ha : a ≠ 0 := by
      have := hpos a (by simp)
      omega
    have hok := createTip_ok s user_id dj_name a tipId now u hdj huid hdjt ha hu hrole hfound
    have hrun : run s ((a :: rest).map (fun a => Op.tip user_id dj_name a tipId now)) =
        run ((createTip s user_id dj_name a tipId now).2)
          (rest.map (fun a => Op.tip user_id dj_name a tipId now)) := by
      simp [run, step]
    rw [hrun, hok]
    have hrest := ih { s with
        tips := alInsert s.tips tipId ⟨tipId, user_id, jsTrim dj_name, a, .Pending, now⟩,
        leaderboard := applyTipToLeaderboard s.leaderboard (jsTrim dj_name) a }
      hu hfound (fun b hb => hpos b (by simp [hb]))
    rw [hrest]
    simp only [djTipsL_applyTip_self, List.sum_cons]
    omega

/-- C4: a sequence of successful `createTip` calls for one fresh DJ leaves
`total_tips` equal to the sum of the amounts, and no single `createTip`
call ever decreases any DJ's `total_tips`. -/
theorem tips_accumulate (s : CanisterState) (user_id dj_name tipId : String)
    (now : Nat) (u : User) (amts : List Nat)
    (hdj : dj_name ≠ "") (huid : user_id ≠ "") (hdjt : jsTrim dj_name ≠ "")
    (hu : alGet s.users user_id = some u) (hrole : u.role ≠ UserRole.DJ)
    (hfound : (findDjByName s.users (jsTrim dj_name)).isSome)
    (hpos : ∀ a ∈ amts, 0 < a)
    (hnone : alGet s.leaderboard (jsTrim dj_name) = none) :
    djTipsL ((run s (amts.map (fun a => Op.tip user_id dj_name a tipId now))).leaderboard)
        (jsTrim dj_name) = amts.sum ∧
      ∀ (s' : CanisterState) (uid dj : String) (amt : Nat) (tid : String)
        (m : Nat) (k : String),
        djTipsL s'.leaderboard k ≤
          djTipsL ((createTip s' uid dj amt tid m).2).leaderboard k := by
  constructor
  · rw [tip_seq_aux user_id dj_name tipId now u hdj huid hdjt hrole amts s hu hfound hpos]
    simp [djTipsL, hnone]
  · intro s' uid dj amt tid m k
    exact djTips_step_mono s' uid dj amt tid m k

/-- Accumulation of a sequence of successful ratings for one DJ. -/
lemma rate_seq_aux (user_id dj_name review ratingId : String) (now : Nat) (u : User)
    (hdj : dj_name ≠ "") (huid : user_id ≠ "") (hdjt : jsTrim dj_name ≠ "") :
    ∀ (rs : List Nat) (s : CanisterState) (t n p : Nat),
      alGet s.users user_id = some u →
      (findDjByName s.users (jsTrim dj_name)).isSome →
      (∀ r ∈ rs, 1 ≤ r ∧ r ≤ 5) →
      alGet s.leaderboard (jsTrim dj_name) =
        some ⟨jsTrim dj_name, t, n, p, mkRat ((p : Nat) : Int) n⟩ →
      alGet ((run s (rs.map (fun r => Op.rate user_id dj_name r review ratingId now))).leaderboard)
          (jsTrim dj_name) =
        some ⟨jsTrim dj_name, t, n + rs.length, p + rs.sum,
          mkRat ((p + rs.sum : Nat) : Int) (n + rs.length)⟩ := by
  intro rs
  induction rs with
  | nil => intro s t n p _ _ _ hentry; simpa [run] using hentry
  | cons r rest ih =>
    intro s t n p hu hfound hrange hentry
    have hlo : 1 ≤ r := (hrange r (by simp)).1
    have hhi : r ≤ 5 := (hrange r (by simp)).2
    have hok := createRating_ok s user_id dj_name r review ratingId now u
      hdj huid hdjt hlo hhi hu hfound
    have hrun : run s ((r :: rest).map (fun r => Op.rate user_id dj_name r review ratingId now)) =
        run ((createRating s user_id dj_name r review ratingId now).2)
          (rest.map (fun r => Op.rate user_id dj_name r review ratingId now)) := by
      simp [run, step]
    rw [hrun, hok]
    have hentry1 :
        alGet (applyRatingToLeaderboard s.leaderboard (jsTrim dj_name) r) (jsTrim dj_name) =
          some ⟨jsTrim dj_name, t, n + 1, p + r, mkRat ((p + r : Nat) : Int) (n + 1)⟩ := by
      unfold applyRatingToLeaderboard
      rw [hentry]
      exact alGet_alInsert_self _ _ _
    have hrest := ih { s with
        ratings := alInsert s.ratings ratingId
          ⟨ratingId, user_id, jsTrim dj_name, r, review, now⟩,
        leaderboard := applyRatingToLeaderboard s.leaderboard (jsTrim dj_name) r }
      t (n + 1) (p + r) hu hfound (fun b hb => hrange b (by simp [hb])) hentry1
    rw [hrest]
    simp only [List.length_cons, List.sum_cons]
    rw [show n + (rest.length + 1) = n + 1 + rest.length by omega,
      show p + (r + rest.sum) = p + r + rest.sum by omega]

/-- C1: applying N successful ratings `r1..rN` (each in `[1,5]`) to a DJ
with no prior leaderboard entry leaves an entry with `total_ratings = N`,
`total_rating_points = r1+...+rN` and `avg_rating = (r1+...+rN)/N` under
exact real division. -/
theorem avg_rating_correct (s : CanisterState)
    (user_id dj_name review ratingId : String) (now : Nat) (u : User)
    (rs : List Nat)
    (hdj : dj_name ≠ "") (huid : user_id ≠ "") (hdjt : jsTrim dj_name ≠ "")
    (hu : alGet s.users user_id = some u)
    (hfound : (findDjByName s.users (jsTrim dj_name)).isSome)
    (hrange : ∀ r ∈ rs, 1 ≤ r ∧ r ≤ 5) (hne : rs ≠ [])
    (hnone : alGet s.leaderboard (jsTrim dj_name) = none) :
    alGet ((run s (rs.map (fun r => Op.rate user_id dj_name r review ratingId now))).leaderboard)
        (jsTrim dj_name) =
      some ⟨jsTrim dj_name, 0, rs.length, rs.sum,
        (rs.sum : Rat) / (rs.length : Rat)⟩ := by
  obtain ⟨r, rest, rfl⟩ := List.exists_cons_of_ne_nil hne
  have hlo : 1 ≤ r := (hrange r (by simp)).1
  have hhi : r ≤ 5 := (hrange r (by simp)).2
  have hok := createRating_ok s user_id dj_name r review ratingId now u
    hdj huid hdjt hlo hhi hu hfound
  have hrun : run s ((r :: rest).map (fun r => Op.rate user_id dj_name r review ratingId now)) =
      run ((createRating s user_id dj_name r review ratingId now).2)
        (rest.map (fun r => Op.rate user_id dj_name r review ratingId now)) := by
    simp [run, step]
  rw [hrun, hok]
  have hentry1 :
      alGet (applyRatingToLeaderboard s.leaderboard (jsTrim dj_name) r) (jsTrim dj_name) =
        some ⟨jsTrim dj_name, 0, 1, r, mkRat ((r : Nat) : Int) 1⟩ := by
    unfold applyRatingToLeaderboard
    rw [hnone]
    rw [show ((r : Nat) : Rat) = mkRat ((r : Nat) : Int) 1 by
      rw [Rat.mkRat_one]; push_cast; ring]
    exact alGet_alInsert_self _ _ _
  have hrest := rate_seq_aux user_id dj_name review ratingId now u hdj huid hdjt
    rest { s with
      ratings := alInsert s.ratings ratingId
        ⟨ratingId, user_id, jsTrim dj_name, r, review, now⟩,
      leaderboard := applyRatingToLeaderboard s.leaderboard (jsTrim dj_name) r }
    0 1 r hu hfound (fun b hb => hrange b (by simp [hb])) hentry1
  rw [hrest]
  simp only [List.length_cons, List.sum_cons]
  rw [show (1 : Nat) + rest.length = rest.length + 1 by omega, Rat.mkRat_eq_div]
  simp only [Int.cast_natCast]

/-- Transitivity of the character-list order. -/
lemma charListLtB_trans : ∀ l m k : List Char, charListLtB l m = true →
    charListLtB m k = true → charListLtB l k = true := by
  intro l
  induction l with
  | nil =>
    intro m k h1 h2
    cases m with
    | nil => simp [charListLtB] at h1
    | cons d ds =>
      cases k with
      | nil => simp [charListLtB] at h2
      | cons e es => simp [charListLtB]
  | cons c cs ih =>
    intro m k h1 h2
    cases m with
    | nil => simp [charListLtB] at h1
    | cons d ds =>
      cases k with
      | nil => simp [charListLtB] at h2
      | cons e es =>
        simp only [charListLtB] at h1 h2 ⊢
        by_cases hcd : c < d
        · by_cases hde : d < e
          · simp [lt_trans hcd hde]
          · by_cases hed : e < d
            · simp [hde, hed] at h2
            · have : d = e := le_antisymm (not_lt.mp hed) (not_lt.mp hde)
              subst this
              simp [hcd]
        · by_cases hdc : d < c
          · simp [hcd, hdc] at h1
          · have : c = d := le_antisymm (not_lt.mp hdc) (not_lt.mp hcd)
            subst this
            simp [hcd] at h1
            by_cases hde : c < e
            · simp [hde]
            · by_cases hed : e < c
              · simp [hde, hed] at h2
              · simp [hde, hed] at h2 ⊢
                exact ih ds es h1 h2

/-- Trichotomy of the character-list order. -/
lemma charListLtB_trichot : ∀ l m : List Char,
    charListLtB l m = true ∨ l = m ∨ charListLtB m l = true := by
  intro l
  induction l with
  | nil =>
    intro m
    cases m with
    | nil => simp [charListLtB]
    | cons d ds => simp [charListLtB]
  | cons c cs ih =>
    intro m
    cases m with
    | nil => simp [charListLtB]
    | cons d ds =>
      by_cases hcd : c < d
      · exact Or.inl (by simp [charListLtB, hcd])
      · by_cases hdc : d < c
        · exact Or.inr (Or.inr (by simp [charListLtB, hdc]))
        · have hce : c = d := le_antisymm (not_lt.mp hdc) (not_lt.mp hcd)
          subst hce
          rcases ih ds with h | h | h
          · exact Or.inl (by simp [charListLtB, h])
          · exact Or.inr (Or.inl (by rw [h]))
          · exact Or.inr (Or.inr (by simp [charListLtB, h]))

/-- Transitivity of the string order. -/
lemma strLt_trans (a b c : String) (h1 : strLt a b) (h2 : strLt b c) : strLt a c :=
  charListLtB_trans a.data b.data c.data h1 h2

/-- Trichotomy of the string order. -/
lemma strLt_trichot (a b : String) : strLt a b ∨ a = b ∨ strLt b a := by
  rcases charListLtB_trichot a.data b.data with h | h | h
  · exact Or.inl h
  · refine Or.inr (Or.inl ?_)
    cases a
    cases b
    simp_all
  · exact Or.inr (Or.inr h)

/-- The full ranking order is total. -/
lemma topDJOrder_total : ∀ a b : LeaderboardEntry, topDJOrder a b ∨ topDJOrder b a := by
  intro a b
  rcases lt_trichotomy a.total_tips b.total_tips with ht | ht | ht
  · exact Or.inr (Or.inl ht)
  · rcases lt_trichotomy a.avg_rating b.avg_rating with ha | ha | ha
    · exact Or.inr (Or.inr (Or.inl ⟨ht.symm, ha⟩))
    · rcases strLt_trichot a.dj_name b.dj_name with hn | hn | hn
      · exact Or.inl (Or.inr (Or.inr ⟨ht, ha, Or.inl hn⟩))
      · exact Or.inl (Or.inr (Or.inr ⟨ht, ha, Or.inr hn⟩))
      · exact Or.inr (Or.inr (Or.inr ⟨ht.symm, ha.symm, Or.inl hn⟩))
    · exact Or.inl (Or.inr (Or.inl ⟨ht, ha⟩))
  · exact Or.inl (Or.inl ht)

/-- The full ranking order is transitive. -/
lemma topDJOrder_trans : ∀ a b c : LeaderboardEntry,
    topDJOrder a b → topDJOrder b c → topDJOrder a c := by
  intro a b c hab hbc
  rcases hab with h1 | ⟨ht1, h1⟩ | ⟨ht1, ha1, hn1⟩ <;>
    rcases hbc with h2 | ⟨ht2, h2⟩ | ⟨ht2, ha2, hn2⟩
  · exact Or.inl (lt_trans h2 h1)
  · exact Or.inl (ht2 ▸ h1)
  · exact Or.inl (ht2 ▸ h1)
  · exact Or.inl (ht1 ▸ h2)
  · exact Or.inr (Or.inl ⟨ht1.trans ht2, lt_trans h2 h1⟩)
  · exact Or.inr (Or.inl ⟨ht1.trans ht2, ha2 ▸ h1⟩)
  · exact Or.inl (ht1 ▸ h2)
  · exact Or.inr (Or.inl ⟨ht1.trans ht2, ha1 ▸ h2⟩)
  · refine Or.inr (Or.inr ⟨ht1.trans ht2, ha1.trans ha2, ?_⟩)
    rcases hn1 with hn1 | hn1
    · rcases hn2 with hn2 | hn2
      · exact Or.inl (strLt_trans _ _ _ hn1 hn2)
      · exact Or.inl (hn2 ▸ hn1)
    · rcases hn2 with hn2 | hn2
      · exact Or.inl (hn1 ▸ hn2)
      · exact Or.inr (hn1.trans hn2)

/-- On name-ascending pairs the JS comparator order agrees with the full
ranking order. -/
lemma tipCmpLe_iff_topDJOrder (a b : LeaderboardEntry)
    (h : strLt a.dj_name b.dj_name ∨ a.dj_name = b.dj_name) :
    tipCmpLe a b ↔ topDJOrder a b := by
  unfold tipCmpLe topDJOrder
  constructor
  · rintro (⟨ht, hav⟩ | ⟨ht, hlt⟩)
    · rcases lt_or_eq_of_le hav with hav | hav
      · exact Or.inr (Or.inl ⟨ht, hav⟩)
      · exact Or.inr (Or.inr ⟨ht, hav.symm, h⟩)
    · exact Or.inl hlt
  · rintro (hlt | ⟨ht, hav⟩ | ⟨ht, hav, _⟩)
    · exact Or.inr ⟨by omega, hlt⟩
    · exact Or.inl ⟨ht, le_of_lt hav⟩
    · exact Or.inl ⟨ht, le_of_eq hav.symm⟩

/-- `orderedInsert` only inspects the relation between the inserted element
and the list's elements. -/
lemma orderedInsert_congr {α : Type} (r r' : α → α → Prop) [DecidableRel r]
    [DecidableRel r'] (a : α) :
    ∀ l : List α, (∀ b ∈ l, (r a b ↔ r' a b)) →
      l.orderedInsert r a = l.orderedInsert r' a := by
  intro l
  induction l with
  | nil => intro _; rfl
  | cons b m ih =>
    intro h
    by_cases hr : r a b
    · rw [List.orderedInsert, List.orderedInsert, if_pos hr,
        if_pos ((h b (by simp)).mp hr)]
    · rw [List.orderedInsert, List.orderedInsert, if_neg hr,
        if_neg (fun hr' => hr ((h b (by simp)).mpr hr')),
        ih (fun c hc => h c (by simp [hc]))]

/-- On a store whose entries are in strictly ascending name order (as
`values()` of the name-keyed B-tree always is), the stable sort by the JS
comparator equals the sort by the full ranking order. -/
lemma insertionSort_cmp_eq (l : List LeaderboardEntry)
    (h : l.Pairwise (fun a b => strLt a.dj_name b.dj_name)) :
    List.insertionSort tipCmpLe l = List.insertionSort topDJOrder l := by
  induction l with
  | nil => rfl
  | cons a m ih =>
    rw [List.insertionSort, List.insertionSort, ih (List.Pairwise.of_cons h)]
    apply orderedInsert_congr
    intro b hb
    have hbm : b ∈ m := (List.mem_insertionSort topDJOrder).mp hb
    exact tipCmpLe_iff_topDJOrder a b
      (Or.inl (List.rel_of_pairwise_cons h hbm))

/-- C6: on any leaderboard store (entries listed in ascending DJ-name
order), the top-DJs query returns the first 5 entries of the sort by
total tips descending, ties by average rating descending, remaining ties
by DJ name ascending; its output is sorted by that order and, being a pure
function of the entry list, is the same on every call. -/
theorem top_djs_ranking (entries : List LeaderboardEntry)
    (h : entries.Pairwise (fun a b => strLt a.dj_name b.dj_name)) :
    getLeaderboardForTopDJs entries =
        (List.insertionSort topDJOrder entries).take 5 ∧
      List.Sorted topDJOrder (getLeaderboardForTopDJs entries) ∧
      (getLeaderboardForTopDJs entries).length = min 5 entries.length := by
  haveI : IsTotal LeaderboardEntry topDJOrder := ⟨topDJOrder_total⟩
  haveI : IsTrans LeaderboardEntry topDJOrder := ⟨fun a b c => topDJOrder_trans a b c⟩
  have he : List.insertionSort tipCmpLe entries =
      List.insertionSort topDJOrder entries := insertionSort_cmp_eq entries h
  refine ⟨by rw [getLeaderboardForTopDJs, he], ?_, ?_⟩
  · rw [getLeaderboardForTopDJs, he]
    exact List.Pairwise.sublist (List.take_sublist 5 _)
      (List.sorted_insertionSort topDJOrder entries)
  · simp [getLeaderboardForTopDJs, List.length_take]

/-- C3: after tips 10, 5, 20 and ratings 5, 3, 4, Nova's entry is
`{total_tips: 35, total_ratings: 3, total_rating_points: 12,
avg_rating: 4}`; the ranking query on the store holding only Nova returns
exactly `[Nova]` (the source query returns the top five, which on this
one-entry store is the top-1 answer `[Nova]`); the rating-floor search at
4.0 returns Nova's profile and at 4.1 answers `NotFound`, excluding Nova. -/
theorem nova_scenario :
    alGet demoFinal.leaderboard "Nova" = some ⟨"Nova", 35, 3, 12, 4⟩ ∧
      getLeaderboardForTopDJs (alValues demoFinal.leaderboard) =
        [⟨"Nova", 35, 3, 12, 4⟩] ∧
      searchDJsByRating demoFinal 4 = .ok [novaUser] ∧
      searchDJsByRating demoFinal (mkRat 41 10) =
        .error (.NotFound ("No DJs found with rating >= " ++ toString (mkRat 41 10))) := by
  refine ⟨by decide, by decide, by rfl, by rfl⟩

/-- The legacy first-variant `createRating` update (`avg' = (avg * n) /
(n + 1)` over `nat64`) truncates and drops the new rating: a fresh entry
rated 5 and then 3 reports average 2 where the true mean is 4. -/
lemma legacyRatingAvgUpdate_truncates :
    legacyRatingAvgUpdate 5 1 = 2 ∧ (5 + 3) / 2 = 4 := by decide

/-! ## Witnesses -/

/-- Witness for C1 at ratings [5, 3] on the demo store. -/
theorem avg_rating_correct_witness :
    alGet ((run demoState0 (([5, 3] : List Nat).map
        (fun r => Op.rate "id-fan" "Nova" r "" "rw" 0))).leaderboard) (jsTrim "Nova") =
      some ⟨jsTrim "Nova", 0, ([5, 3] : List Nat).length, ([5, 3] : List Nat).sum,
        ((([5, 3] : List Nat).sum : Rat)) / ((([5, 3] : List Nat).length : Rat))⟩ :=
  avg_rating_correct demoState0 "id-fan" "Nova" "" "rw" 0 fanUser [5, 3]
    (by decide) (by decide) (by decide) (by decide) (by decide) (by decide)
    (by decide) (by decide)

/-- Witness for C2 on the demo store and Nova's six events. -/
theorem leaderboard_consistency_witness :
    demoState0.leaderboard = [] ∧ lbInv (run demoState0 demoOps).leaderboard :=
  ⟨rfl, leaderboard_consistency demoState0 rfl demoOps⟩

/-- Witness for C4 at amounts [10, 5, 20] on the demo store. -/
theorem tips_accumulate_witness :
    djTipsL ((run demoState0 (([10, 5, 20] : List Nat).map
        (fun a => Op.tip "id-fan" "Nova" a "tw" 0))).leaderboard) (jsTrim "Nova") =
      ([10, 5, 20] : List Nat).sum :=
  (tips_accumulate demoState0 "id-fan" "Nova" "tw" 0 fanUser [10, 5, 20]
    (by decide) (by decide) (by decide) (by decide) (by decide) (by decide)
    (by decide) (by decide)).1

/-- Witness for C5 on the demo store. -/
theorem creation_on_first_use_witness :
    alGet (createTip demoState0 "id-fan" "Nova" 10 "tw" 0).2.leaderboard
        (jsTrim "Nova") = some ⟨jsTrim "Nova", 10, 0, 0, 0⟩ ∧
      alGet (createRating demoState0 "id-fan" "Nova" 5 "" "rw" 0).2.leaderboard
        (jsTrim "Nova") = some ⟨jsTrim "Nova", 0, 1, 5, ((5 : Nat) : Rat)⟩ :=
  ⟨(creation_on_first_use.1 demoState0 "id-fan" "Nova" 10 "tw" 0
      ⟨"tw", "id-fan", jsTrim "Nova", 10, .Pending, 0⟩ rfl rfl).1,
    (creation_on_first_use.2 demoState0 "id-fan" "Nova" 5 "" "rw" 0
      ⟨"rw", "id-fan", jsTrim "Nova", 5, "", 0⟩ rfl rfl).1⟩

/-- Witness for C6 on a three-entry store with a tips tie. -/
theorem top_djs_ranking_witness :
    getLeaderboardForTopDJs wEntries =
        (List.insertionSort topDJOrder wEntries).take 5 ∧
      List.Sorted topDJOrder (getLeaderboardForTopDJs wEntries) ∧
      (getLeaderboardForTopDJs wEntries).length = min 5 wEntries.length :=
  top_djs_ranking wEntries (by decide)

/-- Witness for C7 on the empty store. -/
theorem empty_result_signaling_witness :
    getLeaderboard emptyDemoState = .error (.NotFound "No leaderboard entries found") ∧
      searchDJsByRating emptyDemoState 0 =
        .error (.NotFound ("No DJs found with rating >= " ++ toString (0 : Rat))) :=
  ⟨(empty_result_signaling emptyDemoState 0).1 rfl,
    (empty_result_signaling emptyDemoState 0).2.2.1 rfl⟩

/-- Witness for C8 on a store with one unresolvable entry. -/
theorem search_by_rating_exact_witness :
    [novaUser] =
      ((alValues ghostEntryState.leaderboard).filter
        (fun e => decide ((4 : Rat) ≤ e.avg_rating))).filterMap
        (fun e => findDjByName ghostEntryState.users e.dj_name) :=
  search_by_rating_exact ghostEntryState 4 [novaUser] rfl

/-- Witness for C9: Nova (a DJ) attempts to tip. -/
theorem tip_by_dj_rejected_witness :
    (createTip demoState0 "id-nova" "Fan" 10 "tw" 0).2.tips = demoState0.tips ∧
      (createTip demoState0 "id-nova" "Fan" 10 "tw" 0).2.leaderboard =
        demoState0.leaderboard :=
  (tip_by_dj_rejected demoState0 "id-nova" "Fan" 10 "tw" 0 novaUser rfl rfl).2

/-- Witness for C10: rating Nova's existing entry. -/
theorem rating_frame_on_tips_witness :
    ∃ e', alGet (createRating novaEntryState "id-fan" "Nova" 5 "" "rw" 0).2.leaderboard
        (jsTrim "Nova") = some e' ∧
      e'.total_tips = (⟨"Nova", 35, 3, 12, 4⟩ : LeaderboardEntry).total_tips ∧
      e'.dj_name = (⟨"Nova", 35, 3, 12, 4⟩ : LeaderboardEntry).dj_name ∧
      e'.total_ratings = (⟨"Nova", 35, 3, 12, 4⟩ : LeaderboardEntry).total_ratings + 1 ∧
      e'.total_rating_points =
        (⟨"Nova", 35, 3, 12, 4⟩ : LeaderboardEntry).total_rating_points + 5 :=
  rating_frame_on_tips novaEntryState "id-fan" "Nova" 5 "" "rw" 0
    ⟨"Nova", 35, 3, 12, 4⟩ ⟨"rw", "id-fan", jsTrim "Nova", 5, "", 0⟩ rfl rfl

end Lipia
